import Mathlib

/-!
Verification development for the icon theme resolution engine
(gtk/gtkicontheme.c): shallow embedding of the directory matcher,
lookup scan, cache key, LRU side list, staleness logic, theme
registry load, and the symbolic recolor cache, with theorems about
the behaviour each part exhibits.
-/

set_option maxRecDepth 4000

namespace IconThemeModel

/-- C enum IconThemeDirType. -/
inductive IconThemeDirType where
  | fixed
  | scalable
  | threshold
  | unthemed
deriving DecidableEq, Repr

/-- Icon file suffix bitmask values (C enum IconSuffix). -/
def ICON_SUFFIX_NONE : Nat := 0

def ICON_SUFFIX_XPM : Nat := 1

def ICON_SUFFIX_SVG : Nat := 2

def ICON_SUFFIX_PNG : Nat := 4

/-- One theme subdirectory (struct IconThemeDir); the icons field is the
name-to-suffix-bitmask table consulted by theme_dir_get_icon_suffix. -/
structure IconThemeDir where
  dtype : IconThemeDirType
  size : Int
  scale : Int
  min_size : Int
  max_size : Int
  threshold : Int
  dir : String
  icons : String → Nat

/-- theme_dir_size_difference from the source: note the Scalable branch
compares the lower bound against size*scale but the upper bound against
the unscaled size. -/
def theme_dir_size_difference (d : IconThemeDir) (size scale : Int) : Int :=
  let scaled_size := size * scale
  let scaled_dir_size := d.size * d.scale
  match d.dtype with
  | .fixed => |scaled_size - scaled_dir_size|
  | .scalable =>
      if scaled_size < d.min_size * d.scale then d.min_size * d.scale - scaled_size
      else if size > d.max_size * d.scale then scaled_size - d.max_size * d.scale
      else 0
  | .threshold =>
      let min := (d.size - d.threshold) * d.scale
      let max := (d.size + d.threshold) * d.scale
      if scaled_size < min then min - scaled_size
      else if scaled_size > max then scaled_size - max
      else 0
  | .unthemed => 1000

/-- The Scalable distance as the specification words it: 0 when the
scale-adjusted requested size size*scale lies in [minSize*dirScale,
maxSize*dirScale], else the scale-adjusted excess below the minimum or
above the maximum, with both bound comparisons made against size*scale. -/
def scalable_size_difference_spec (d : IconThemeDir) (size scale : Int) : Int :=
  let scaled_size := size * scale
  if scaled_size < d.min_size * d.scale then d.min_size * d.scale - scaled_size
  else if scaled_size > d.max_size * d.scale then scaled_size - d.max_size * d.scale
  else 0

/-- best_suffix from the source: PNG beats SVG beats XPM, and SVG is
considered only when allow_svg holds. -/
def best_suffix (suffix : Nat) (allow_svg : Bool) : Nat :=
  if suffix &&& ICON_SUFFIX_PNG ≠ 0 then ICON_SUFFIX_PNG
  else if allow_svg ∧ suffix &&& ICON_SUFFIX_SVG ≠ 0 then ICON_SUFFIX_SVG
  else if suffix &&& ICON_SUFFIX_XPM ≠ 0 then ICON_SUFFIX_XPM
  else ICON_SUFFIX_NONE

/-- The shared tail of compare_dir_matches after the exactness and
distance rules: scale match, then non-Scalable preference, then the
final raw-difference tiebreak with a less-or-equal comparison. -/
def compare_dir_matches_tail (dir_a dir_b : IconThemeDir)
    (requested_size requested_scale : Int) : Bool :=
  if dir_a.scale = requested_scale ∧ dir_b.scale ≠ requested_scale then true
  else if dir_a.scale ≠ requested_scale ∧ dir_b.scale = requested_scale then false
  else if dir_a.dtype ≠ .scalable ∧ dir_b.dtype = .scalable then true
  else if dir_a.dtype = .scalable ∧ dir_b.dtype ≠ .scalable then false
  else
    |requested_size * requested_scale - dir_a.size * dir_a.scale| ≤
      |requested_size * requested_scale - dir_b.size * dir_b.scale|

/-- compare_dir_matches from the source: returns true when dir_a is a
better match than dir_b. -/
def compare_dir_matches (dir_a : IconThemeDir) (difference_a : Int)
    (dir_b : IconThemeDir) (difference_b : Int)
    (requested_size requested_scale : Int) : Bool :=
  if difference_a = 0 then
    if difference_b ≠ 0 then
      true
    else
      compare_dir_matches_tail dir_a dir_b requested_size requested_scale
  else
    if dir_a.size ≥ requested_size ∧ dir_b.size < requested_size then true
    else if dir_a.size < requested_size ∧ dir_b.size ≥ requested_size then false
    else if difference_a < difference_b then true
    else if difference_a > difference_b then false
    else
      compare_dir_matches_tail dir_a dir_b requested_size requested_scale

/-- One step of the running-best scan in theme_lookup_icon: a directory
holding the icon in an acceptable format challenges the current best via
compare_dir_matches. -/
def theme_lookup_step (icon_name : String) (size scale : Int) (allow_svg : Bool)
    (acc : Option (IconThemeDir × Int)) (d : IconThemeDir) :
    Option (IconThemeDir × Int) :=
  if best_suffix (d.icons icon_name) allow_svg ≠ ICON_SUFFIX_NONE then
    let difference := theme_dir_size_difference d size scale
    match acc with
    | none => some (d, difference)
    | some (min_dir, min_difference) =>
        if compare_dir_matches d difference min_dir min_difference size scale then
          some (d, difference)
        else
          acc
  else
    acc

/-- The directory-selection loop of theme_lookup_icon over the theme's
directory list, returning the chosen directory and its recorded
difference. -/
def theme_lookup_scan (dirs : List IconThemeDir) (icon_name : String)
    (size scale : Int) (allow_svg : Bool) : Option (IconThemeDir × Int) :=
  dirs.foldl (theme_lookup_step icon_name size scale allow_svg) none

/-- One theme (struct IconTheme): its name and its ordered directory
list. -/
structure IconTheme where
  name : String
  dirs : List IconThemeDir

/-- theme_lookup_icon restricted to the directory scan (the builtin-icon
branch applies only to the default theme with use_builtin set and is not
modelled here). -/
def theme_lookup_icon (t : IconTheme) (icon_name : String)
    (size scale : Int) (allow_svg : Bool) : Option (IconThemeDir × Int) :=
  theme_lookup_scan t.dirs icon_name size scale allow_svg

/-- A successful resolution: which theme, which candidate name, which
directory, and the recorded difference. -/
structure ResolvedIcon where
  theme_name : String
  icon_name : String
  dir : IconThemeDir
  difference : Int

/-- The allow_svg derivation at the top of choose_icon: NO_SVG forces
false, else FORCE_SVG forces true, else the codec capability decides. -/
def allow_svg_of (no_svg force_svg pixbuf_supports_svg : Bool) : Bool :=
  if no_svg then false
  else if force_svg then true
  else pixbuf_supports_svg

/-- g_str_has_suffix: does the string end with the given suffix
(compared over the character sequences). -/
def g_str_has_suffix (s sfx : String) : Bool :=
  sfx.data.isSuffixOf s.data

/-- The theme-search portion of choose_icon: when the first candidate
name carries the "-symbolic" suffix, that name is first tried against
every theme in order; only if that pass fails does the per-theme loop
over all candidate names run. -/
def choose_icon_search (themes : List IconTheme) (icon_names : List String)
    (size scale : Int) (allow_svg : Bool) : Option ResolvedIcon :=
  let symbolic_pass :=
    match icon_names with
    | [] => none
    | n0 :: _ =>
        if g_str_has_suffix n0 "-symbolic" then
          themes.findSome? fun t =>
            (theme_lookup_icon t n0 size scale allow_svg).map fun (p : IconThemeDir × Int) =>
              (⟨t.name, n0, p.1, p.2⟩ : ResolvedIcon)
        else none
  match symbolic_pass with
  | some r => some r
  | none =>
      themes.findSome? fun t =>
        icon_names.findSome? fun n =>
          (theme_lookup_icon t n size scale allow_svg).map fun (p : IconThemeDir × Int) =>
            (⟨t.name, n, p.1, p.2⟩ : ResolvedIcon)

/-- The composite request key (struct IconInfoKey); the C key holds a
NULL-terminated name array, modelled as a list. -/
structure IconInfoKey where
  icon_names : List String
  size : Int
  scale : Int
  flags : Nat
deriving DecidableEq, Repr

/-- The name-array comparison loop of icon_info_key_equal: walk while
both arrays hold a name, compare pairwise, and finally demand that both
arrays end at the same position. -/
def icon_names_equal : List String → List String → Bool
  | [], [] => true
  | [], _ :: _ => false
  | _ :: _, [] => false
  | a :: as, b :: bs => a = b && icon_names_equal as bs

/-- icon_info_key_equal from the source. -/
def icon_info_key_equal (a b : IconInfoKey) : Bool :=
  if a.size ≠ b.size then false
  else if a.scale ≠ b.scale then false
  else if a.flags ≠ b.flags then false
  else icon_names_equal a.icon_names b.icon_names

/-- INFO_CACHE_LRU_SIZE from the source. -/
def INFO_CACHE_LRU_SIZE : Nat := 32

/-- ensure_lru_cache_space: when the list reaches the cap, drop the node
found at index INFO_CACHE_LRU_SIZE - 1 (the tail of a full list),
releasing its borrowed reference. -/
def ensure_lru_cache_space (lru : List α) : List α :=
  if INFO_CACHE_LRU_SIZE - 1 < lru.length then
    lru.eraseIdx (INFO_CACHE_LRU_SIZE - 1)
  else
    lru

/-- add_to_lru_cache: make space, then prepend (the caller asserts the
entry is not already a member). -/
def add_to_lru_cache (lru : List α) (x : α) : List α :=
  x :: ensure_lru_cache_space lru

/-- ensure_in_lru_cache: an existing member is moved to the front;
otherwise the entry is added. -/
def ensure_in_lru_cache [DecidableEq α] (lru : List α) (x : α) : List α :=
  if x ∈ lru then x :: lru.erase x
  else add_to_lru_cache lru x

/-- remove_from_lru_cache: a primary-cache hit drops the entry from the
LRU side list. -/
def remove_from_lru_cache [DecidableEq α] (lru : List α) (x : α) : List α :=
  if x ∈ lru then lru.erase x else lru

/-- One tracked directory and its recorded modification time (struct
IconThemeDirMtime); mtime 0 records that the directory did not exist. -/
structure DirMtime where
  dir : String
  mtime : Int
deriving DecidableEq, Repr

/-- The per-directory test of the rescan_themes loop: the filesystem is
a map from path to current mtime (none = missing or not a directory).
The directory counts as unchanged when it still exists with the recorded
mtime, or when it was recorded absent (mtime 0) and is still absent. -/
def dir_mtime_changed (fs : String → Option Int) (d : DirMtime) : Bool :=
  match fs d.dir with
  | some m => decide (d.mtime ≠ m)
  | none => decide (d.mtime ≠ 0)

/-- The mutable registry state driven by ensure_valid_themes. The
generation counter increments at each completed load, standing for the
freshly rebuilt theme tables. -/
structure RegistryState where
  themes_valid : Bool
  loading_themes : Bool
  last_stat_time : Int
  dir_mtimes : List DirMtime
  generation : Nat
  cache_keys : List IconInfoKey

/-- rescan_themes: true as soon as one tracked directory changed (state
untouched); otherwise false, recording the stat time. -/
def rescan_themes (fs : String → Option Int) (now : Int) (st : RegistryState) :
    Bool × RegistryState :=
  if st.dir_mtimes.any (dir_mtime_changed fs) then (true, st)
  else (false, { st with last_stat_time := now })

/-- blow_themes: drop every theme table and mark the registry invalid. -/
def blow_themes (st : RegistryState) : RegistryState :=
  { st with themes_valid := false, dir_mtimes := [] }

/-- load_themes reduced to the registry-state effects the claims need:
rebuild the tracked-directory records from the filesystem, bump the
generation, mark valid and record the stat time. -/
def load_themes_model (fs : String → Option Int) (tracked : List String)
    (now : Int) (st : RegistryState) : RegistryState :=
  { st with
    themes_valid := true
    generation := st.generation + 1
    dir_mtimes := tracked.map fun p => ⟨p, (fs p).getD 0⟩
    last_stat_time := now }

/-- The outcome of one ensure_valid_themes call: the new state, whether
a stat pass ran, and whether a "changed" notification was queued. -/
structure EnsureResult where
  state : RegistryState
  did_stat : Bool
  emitted_changed : Bool

/-- ensure_valid_themes from the source: guarded by loading_themes; a
valid registry re-stats only when more than 5 time units have passed,
and a positive rescan clears the info cache and blows the themes; an
invalid registry is (re)loaded, queueing the changed notification only
when it had been valid on entry. -/
def ensure_valid_themes (fs : String → Option Int) (tracked : List String)
    (now : Int) (st : RegistryState) : EnsureResult :=
  if st.loading_themes then ⟨st, false, false⟩
  else
    let st0 := { st with loading_themes := true }
    let was_valid := st0.themes_valid
    let stat_step :=
      if st0.themes_valid then
        if |now - st0.last_stat_time| > 5 then
          let r := rescan_themes fs now st0
          if r.1 then (true, blow_themes { r.2 with cache_keys := [] })
          else (true, r.2)
        else (false, st0)
      else (false, st0)
    let load_step :=
      if ¬ stat_step.2.themes_valid then
        (load_themes_model fs tracked now stat_step.2, was_valid)
      else (stat_step.2, false)
    ⟨{ load_step.1 with loading_themes := false }, stat_step.1, load_step.2⟩

/-- DEFAULT_THEME_NAME from the source. -/
def DEFAULT_THEME_NAME : String := "hicolor"

/-- What the search path holds for one theme name: no usable descriptor
anywhere, a descriptor that parses but lacks the Directories key, or a
good descriptor with its Inherits list. -/
inductive ThemeFileState where
  | noFile
  | fileNoDirs
  | file (inherits : List String)
deriving DecidableEq

/-- insert_theme at the theme-name level: skip a name already present;
with a good descriptor, prepend the theme then recursively insert each
inherited name; with a descriptor lacking Directories the freshly added
theme is removed again (net no change); with no descriptor only the
default theme name gets a placeholder entry. Recursion depth is bounded
by fuel standing for the finitely many theme names on disk. -/
def insert_theme (world : String → ThemeFileState) :
    Nat → List String → String → List String
  | 0, themes, _ => themes
  | fuel + 1, themes, name =>
      if name ∈ themes then themes
      else
        match world name with
        | .noFile =>
            if name = DEFAULT_THEME_NAME then name :: themes else themes
        | .fileNoDirs => themes
        | .file inh => inh.foldl (insert_theme world fuel) (name :: themes)

/-- The theme-list construction of load_themes: insert the current
theme (when configured), then "gnome", then the default theme, and
reverse the accumulated prepend-order list. -/
def load_themes_names (world : String → ThemeFileState) (fuel : Nat)
    (current : Option String) : List String :=
  let t0 : List String := []
  let t1 := match current with
    | some c => insert_theme world fuel t0 c
    | none => t0
  let t2 := insert_theme world fuel t1 "gnome"
  let t3 := insert_theme world fuel t2 DEFAULT_THEME_NAME
  t3.reverse

/-- An RGBA color; the C code stores doubles, modelled with exact
rationals so the 1e-4 tolerance comparisons are literal. -/
structure RGBA where
  red : ℚ
  green : ℚ
  blue : ℚ
  alpha : ℚ
deriving DecidableEq, Repr

/-- The zero-initialized color: fully transparent. -/
def transparent : RGBA := ⟨0, 0, 0, 0⟩

/-- rgba_matches from the source: an unset (NULL) requested color is
compared as transparent; every channel must agree within 0.0001. -/
def rgba_matches (a : Option RGBA) (b : RGBA) : Bool :=
  let a := a.getD transparent
  decide (|a.red - b.red| < 1 / 10000 ∧ |a.green - b.green| < 1 / 10000 ∧
    |a.blue - b.blue| < 1 / 10000 ∧ |a.alpha - b.alpha| < 1 / 10000)

/-- One memoized symbolic rendering (struct SymbolicPixbufCache); the
raster is an opaque identifier. Unset colors are stored zeroed, hence
transparent. -/
structure SymbolicPixbufCache where
  fg : RGBA
  success_color : RGBA
  warning_color : RGBA
  error_color : RGBA
  pixbuf : Nat
deriving DecidableEq, Repr

/-- symbolic_pixbuf_cache_new: store each supplied color, leaving unset
slots zeroed; the new entry heads the list. -/
def symbolic_pixbuf_cache_new (pixbuf : Nat) (fg sc wc ec : Option RGBA) :
    SymbolicPixbufCache :=
  ⟨fg.getD transparent, sc.getD transparent, wc.getD transparent,
    ec.getD transparent, pixbuf⟩

/-- symbolic_pixbuf_cache_matches: first entry whose four stored colors
all match the request within tolerance. -/
def symbolic_pixbuf_cache_matches :
    List SymbolicPixbufCache → Option RGBA → Option RGBA → Option RGBA →
    Option RGBA → Option SymbolicPixbufCache
  | [], _, _, _, _ => none
  | c :: rest, fg, sc, wc, ec =>
      if rgba_matches fg c.fg && rgba_matches sc c.success_color &&
          rgba_matches wc c.warning_color && rgba_matches ec c.error_color then
        some c
      else
        symbolic_pixbuf_cache_matches rest fg sc wc ec

/-- The use_cache path of _gtk_icon_info_load_symbolic_internal: a
cache match returns the memoized raster with the list untouched; a miss
renders (the fresh raster is the `rendered` argument) and prepends a new
entry. -/
def load_symbolic_cached (cache : List SymbolicPixbufCache)
    (fg sc wc ec : Option RGBA) (rendered : Nat) :
    Nat × List SymbolicPixbufCache :=
  match symbolic_pixbuf_cache_matches cache fg sc wc ec with
  | some c => (c.pixbuf, cache)
  | none => (rendered, symbolic_pixbuf_cache_new rendered fg sc wc ec :: cache)

/-! ## Theorems -/

/-- A Scalable directory on which the two Scalable distance readings
disagree: [16,32] at directory scale 1. -/
def scalableDir : IconThemeDir :=
  ⟨.scalable, 24, 1, 16, 32, 2, "scalable", fun _ => 4⟩

/-- C1: the claim says both Scalable bound comparisons are made against
the scale-adjusted requested size size*scale and the distance is 0
exactly when size*scale lies in [minSize*dirScale, maxSize*dirScale].
The code compares the upper bound against the unscaled size: at request
(size 20, scale 2) against a Scalable directory spanning [16, 32] at
directory scale 1, the scaled request 40 exceeds the maximum 32, and the
spec-worded distance is 8, yet theme_dir_size_difference returns 0
because 20 ≤ 32. The code contradicts itself here: its own lower-bound
comparison and both returned excess values use scaled_size. -/
theorem C1_scalable_upper_bound_uses_unscaled_size :
    theme_dir_size_difference scalableDir 20 2 = 0 ∧
    scalable_size_difference_spec scalableDir 20 2 = 8 ∧
    ¬ (scalableDir.min_size * scalableDir.scale ≤ 20 * 2 ∧
        20 * 2 ≤ scalableDir.max_size * scalableDir.scale) := by
  refine ⟨rfl, rfl, ?_⟩
  decide

/-- The name-array loop of icon_info_key_equal succeeds exactly on
identical name lists: the trailing check demands both arrays terminate
at the same position. -/
theorem icon_names_equal_iff : ∀ as bs : List String,
    icon_names_equal as bs = true ↔ as = bs := by
  intro as
  induction as with
  | nil => intro bs; cases bs <;> simp [icon_names_equal]
  | cons a as ih => intro bs; cases bs <;> simp [icon_names_equal, ih]

/-- C8 counterexample: two keys with identical flags, size and scale
whose name lists agree at every position up to the end of the shorter
list are claimed equal, but icon_info_key_equal rejects them because the
longer list has not ended. -/
theorem C8_shorter_name_list_not_equal :
    icon_info_key_equal ⟨["a"], 16, 1, 0⟩ ⟨["a", "b"], 16, 1, 0⟩ = false := by
  decide

/-- C8 (amended): two request keys are equal exactly when they have
identical flags, identical size, identical scale, and identical name
sequences — same length and equal at every position; a strict prefix is
not equal. -/
theorem C8_key_equal_iff (a b : IconInfoKey) :
    icon_info_key_equal a b = true ↔
      a.flags = b.flags ∧ a.size = b.size ∧ a.scale = b.scale ∧
        a.icon_names = b.icon_names := by
  unfold icon_info_key_equal
  by_cases hs : a.size = b.size <;> by_cases hc : a.scale = b.scale <;>
    by_cases hf : a.flags = b.flags <;>
    simp [hs, hc, hf, icon_names_equal_iff]

/-- C10: within a matched directory the format priority is fixed:
a PNG file wins over everything (vector formats allowed or even forced
by the flags), an SVG file is eligible only when SVG loading is allowed
(NO_SVG forces allow_svg false, FORCE_SVG forces it true), and with SVG
suppressed an XPM file is the fallback after PNG. -/
theorem C10_best_suffix_priority (suffix : Nat) (allow_svg force_svg sup : Bool) :
    (suffix &&& ICON_SUFFIX_PNG ≠ 0 →
        best_suffix suffix allow_svg = ICON_SUFFIX_PNG) ∧
    (suffix &&& ICON_SUFFIX_PNG = 0 → allow_svg = true →
        suffix &&& ICON_SUFFIX_SVG ≠ 0 →
        best_suffix suffix allow_svg = ICON_SUFFIX_SVG) ∧
    best_suffix suffix false ≠ ICON_SUFFIX_SVG ∧
    allow_svg_of true force_svg sup = false ∧
    allow_svg_of false true sup = true ∧
    (suffix &&& ICON_SUFFIX_PNG = 0 → suffix &&& ICON_SUFFIX_XPM ≠ 0 →
        best_suffix suffix false = ICON_SUFFIX_XPM) := by
  refine ⟨?_, ?_, ?_, rfl, rfl, ?_⟩
  · intro h
    simp [best_suffix, h]
  · intro h ha hsvg
    subst ha
    unfold best_suffix
    rw [if_neg (by simp [h]), if_pos ⟨rfl, hsvg⟩]
  · unfold best_suffix
    split
    · decide
    · split
      · simp_all
      · split <;> decide
  · intro h hx
    unfold best_suffix
    rw [if_neg (by simp [h]), if_neg (by simp), if_pos hx]

/-- C10 witness: a directory entry offering PNG, SVG and XPM together
resolves to PNG; without PNG the SVG wins when allowed; with SVG
suppressed the XPM remains. -/
theorem C10_best_suffix_priority_witness :
    best_suffix 7 true = ICON_SUFFIX_PNG ∧
    best_suffix 3 true = ICON_SUFFIX_SVG ∧
    best_suffix 3 false = ICON_SUFFIX_XPM :=
  ⟨(C10_best_suffix_priority 7 true true true).1 (by decide),
   (C10_best_suffix_priority 3 true true true).2.1 (by decide) rfl (by decide),
   (C10_best_suffix_priority 3 true true true).2.2.2.2.2 (by decide) (by decide)⟩

/-- Erasing the last index of a list drops its last element. -/
theorem eraseIdx_length_sub_one {α : Type} : ∀ l : List α,
    l.eraseIdx (l.length - 1) = l.dropLast := by
  intro l
  induction l with
  | nil => rfl
  | cons a l ih =>
      cases l with
      | nil => rfl
      | cons b t =>
          simpa [List.eraseIdx, List.dropLast] using ih

/-- C5: the LRU side list is bounded by 32 entries: parking keeps the
bound and preserves distinctness; parking an entry already present moves
it to the head instead of duplicating; parking a new entry into a full
list drops the tail entry first; and a primary-cache hit removes the
entry from the list. -/
theorem C5_lru_invariants {α : Type} [DecidableEq α] (lru : List α) (x : α)
    (hlen : lru.length ≤ INFO_CACHE_LRU_SIZE) (hnd : lru.Nodup) :
    (ensure_in_lru_cache lru x).length ≤ INFO_CACHE_LRU_SIZE ∧
    (ensure_in_lru_cache lru x).Nodup ∧
    (ensure_in_lru_cache lru x).head? = some x ∧
    (x ∈ lru → ensure_in_lru_cache lru x = x :: lru.erase x) ∧
    (x ∉ lru → lru.length = INFO_CACHE_LRU_SIZE →
        ensure_in_lru_cache lru x = x :: lru.dropLast) ∧
    (remove_from_lru_cache lru x).length ≤ INFO_CACHE_LRU_SIZE ∧
    x ∉ remove_from_lru_cache lru x := by
  by_cases hmem : x ∈ lru
  · have herase : ensure_in_lru_cache lru x = x :: lru.erase x := by
      simp [ensure_in_lru_cache, hmem]
    have hndE : (lru.erase x).Nodup := hnd.erase x
    have hxE : x ∉ lru.erase x := fun hx =>
      ((List.Nodup.mem_erase_iff hnd).mp hx).1 rfl
    have hrem : remove_from_lru_cache lru x = lru.erase x := by
      simp [remove_from_lru_cache, hmem]
    have hpos : 0 < lru.length := List.length_pos_of_mem hmem
    refine ⟨?_, ?_, ?_, fun _ => herase, fun h => absurd hmem h, ?_, ?_⟩
    · rw [herase]
      have := List.length_erase_of_mem hmem
      simp only [List.length_cons, this]
      omega
    · rw [herase]
      exact List.nodup_cons.mpr ⟨hxE, hndE⟩
    · rw [herase]; rfl
    · rw [hrem]
      calc (lru.erase x).length ≤ lru.length := (List.erase_sublist x lru).length_le
        _ ≤ INFO_CACHE_LRU_SIZE := hlen
    · rw [hrem]
      exact hxE
  · have hadd : ensure_in_lru_cache lru x = x :: ensure_lru_cache_space lru := by
      simp [ensure_in_lru_cache, hmem, add_to_lru_cache]
    have hspace_sub : List.Sublist (ensure_lru_cache_space lru) lru := by
      unfold ensure_lru_cache_space
      split
      · exact List.eraseIdx_sublist lru (INFO_CACHE_LRU_SIZE - 1)
      · exact List.Sublist.refl lru
    have hxS : x ∉ ensure_lru_cache_space lru :=
      fun hx => hmem (hspace_sub.mem hx)
    have hrem : remove_from_lru_cache lru x = lru := by
      simp [remove_from_lru_cache, hmem]
    refine ⟨?_, ?_, ?_, fun h => absurd h hmem, ?_, ?_, ?_⟩
    · rw [hadd]
      unfold ensure_lru_cache_space
      split
      · rename_i hfull
        have h32 : INFO_CACHE_LRU_SIZE = 32 := rfl
        rw [List.length_cons, List.length_eraseIdx, if_pos hfull]
        rw [h32] at hfull hlen ⊢
        omega
      · rename_i hnot
        have h32 : INFO_CACHE_LRU_SIZE = 32 := rfl
        rw [List.length_cons]
        rw [h32] at hnot hlen ⊢
        omega
    · rw [hadd]
      exact List.nodup_cons.mpr ⟨hxS, hspace_sub.nodup hnd⟩
    · rw [hadd]; rfl
    · intro _ hfull
      rw [hadd]
      unfold ensure_lru_cache_space
      have h32 : INFO_CACHE_LRU_SIZE = 32 := rfl
      rw [if_pos (by rw [h32] at hfull ⊢; omega)]
      rw [show INFO_CACHE_LRU_SIZE - 1 = lru.length - 1 by rw [h32] at hfull ⊢; omega]
      rw [eraseIdx_length_sub_one]
    · rw [hrem]
      exact hlen
    · rw [hrem]
      exact hmem

/-- C5 witness: a three-entry list within the bound, re-parking entry 2
moves it to the head, and a hit on entry 2 removes it. -/
theorem C5_lru_invariants_witness :
    ensure_in_lru_cache [1, 2, 3] 2 = [2, 1, 3] ∧
    (2 : Nat) ∉ remove_from_lru_cache [1, 2, 3] 2 := by
  have h := C5_lru_invariants (α := Nat) [1, 2, 3] 2 (by decide) (by decide)
  exact ⟨by rw [h.2.2.2.1 (by decide)]; rfl, h.2.2.2.2.2.2⟩

/-- A request (fg, success, warning, error) matches one memoized entry
when all four color slots agree within the per-channel tolerance. -/
def cache_entry_matches (e : SymbolicPixbufCache)
    (fg sc wc ec : Option RGBA) : Prop :=
  rgba_matches fg e.fg = true ∧ rgba_matches sc e.success_color = true ∧
    rgba_matches wc e.warning_color = true ∧ rgba_matches ec e.error_color = true

instance (e : SymbolicPixbufCache) (fg sc wc ec : Option RGBA) :
    Decidable (cache_entry_matches e fg sc wc ec) := by
  unfold cache_entry_matches
  infer_instance

/-- The linear scan of symbolic_pixbuf_cache_matches returns a member
that matches, and returns none exactly when no entry matches. -/
theorem symbolic_pixbuf_cache_matches_spec (fg sc wc ec : Option RGBA) :
    ∀ cache : List SymbolicPixbufCache,
      (∀ e, symbolic_pixbuf_cache_matches cache fg sc wc ec = some e →
        e ∈ cache ∧ cache_entry_matches e fg sc wc ec) ∧
      (symbolic_pixbuf_cache_matches cache fg sc wc ec = none ↔
        ∀ e ∈ cache, ¬ cache_entry_matches e fg sc wc ec) := by
  intro cache
  induction cache with
  | nil => simp [symbolic_pixbuf_cache_matches]
  | cons c rest ih =>
      unfold symbolic_pixbuf_cache_matches
      by_cases hc : cache_entry_matches c fg sc wc ec
      · obtain ⟨h1, h2, h3, h4⟩ := hc
        rw [if_pos (by rw [h1, h2, h3, h4]; rfl)]
        constructor
        · intro e he
          obtain rfl : c = e := by simpa using he
          exact ⟨List.mem_cons_self c rest, h1, h2, h3, h4⟩
        · constructor
          · intro h; cases h
          · intro hall
            exact absurd ⟨h1, h2, h3, h4⟩ (hall c (List.mem_cons_self c rest))
      · have hcond : ¬(rgba_matches fg c.fg && rgba_matches sc c.success_color &&
            rgba_matches wc c.warning_color && rgba_matches ec c.error_color) = true := by
          intro hb
          simp only [Bool.and_eq_true] at hb
          exact hc ⟨hb.1.1.1, hb.1.1.2, hb.1.2, hb.2⟩
        rw [if_neg hcond]
        constructor
        · intro e he
          obtain ⟨hmem, hm⟩ := ih.1 e he
          exact ⟨List.mem_cons_of_mem c hmem, hm⟩
        · rw [ih.2]
          constructor
          · intro hall e he
            rcases List.mem_cons.mp he with rfl | he2
            · exact hc
            · exact hall e he2
          · intro hall e he
            exact hall e (List.mem_cons_of_mem c he)

/-- C9: a symbolic-render request whose four color slots all match some
memoized entry within 1e-4 per channel (unset colors compared as
transparent) reuses a previously rendered raster and leaves the
memoization list unchanged; a request matching no entry — in particular
whenever every entry has some channel off by more than the tolerance —
renders anew and prepends an independent entry; and any single channel
differing by more than 1e-4 defeats the per-slot color match. -/
theorem C9_symbolic_recolor_cache (cache : List SymbolicPixbufCache)
    (fg sc wc ec : Option RGBA) (rendered : Nat) :
    ((∃ e ∈ cache, cache_entry_matches e fg sc wc ec) →
      (load_symbolic_cached cache fg sc wc ec rendered).2 = cache ∧
      ∃ e ∈ cache, cache_entry_matches e fg sc wc ec ∧
        (load_symbolic_cached cache fg sc wc ec rendered).1 = e.pixbuf) ∧
    ((∀ e ∈ cache, ¬ cache_entry_matches e fg sc wc ec) →
      load_symbolic_cached cache fg sc wc ec rendered =
        (rendered, symbolic_pixbuf_cache_new rendered fg sc wc ec :: cache)) ∧
    (∀ (a : Option RGBA) (b : RGBA),
      (1 / 10000 < |(a.getD transparent).red - b.red| ∨
        1 / 10000 < |(a.getD transparent).green - b.green| ∨
        1 / 10000 < |(a.getD transparent).blue - b.blue| ∨
        1 / 10000 < |(a.getD transparent).alpha - b.alpha|) →
      rgba_matches a b = false) := by
  have hspec := symbolic_pixbuf_cache_matches_spec fg sc wc ec cache
  refine ⟨?_, ?_, ?_⟩
  · intro hex
    unfold load_symbolic_cached
    cases hm : symbolic_pixbuf_cache_matches cache fg sc wc ec with
    | none =>
        obtain ⟨e, he, hme⟩ := hex
        exact absurd hme (hspec.2.mp hm e he)
    | some c =>
        obtain ⟨hmem, hmc⟩ := hspec.1 c hm
        exact ⟨rfl, c, hmem, hmc, rfl⟩
  · intro hall
    unfold load_symbolic_cached
    rw [hspec.2.mpr hall]
  · intro a b hch
    unfold rgba_matches
    rw [decide_eq_false_iff_not]
    intro ⟨h1, h2, h3, h4⟩
    rcases hch with h | h | h | h
    · exact absurd (lt_trans h h1) (lt_irrefl _)
    · exact absurd (lt_trans h h2) (lt_irrefl _)
    · exact absurd (lt_trans h h3) (lt_irrefl _)
    · exact absurd (lt_trans h h4) (lt_irrefl _)

/-- A memoized red foreground rendering, raster id 7. -/
def e0 : SymbolicPixbufCache :=
  symbolic_pixbuf_cache_new 7 (some ⟨1, 0, 0, 1⟩) none none none

/-- A foreground within 1e-4 of pure red on every channel. -/
def fgNear : RGBA := ⟨1 - 1 / 20000, 0, 0, 1⟩

/-- A foreground half a unit away from pure red. -/
def fgFar : RGBA := ⟨1 / 2, 0, 0, 1⟩

/-- C9 witness: against a one-entry memoization list, a request within
tolerance on every channel keeps the list and a request off by 1/2 on
the red channel fails the color match and prepends a new entry. -/
theorem C9_symbolic_recolor_cache_witness :
    (load_symbolic_cached [e0] (some fgNear) none none none 9).2 = [e0] ∧
    load_symbolic_cached [e0] (some fgFar) none none none 9 =
      (9, symbolic_pixbuf_cache_new 9 (some fgFar) none none none :: [e0]) ∧
    rgba_matches (some fgFar) e0.fg = false := by
  have h1 := C9_symbolic_recolor_cache [e0] (some fgNear) none none none 9
  have h2 := C9_symbolic_recolor_cache [e0] (some fgFar) none none none 9
  have hmatch : cache_entry_matches e0 (some fgNear) none none none := by
    unfold cache_entry_matches rgba_matches e0 fgNear symbolic_pixbuf_cache_new
      transparent
    simp only [Option.getD_some, Option.getD_none, decide_eq_true_eq]
    refine ⟨⟨?_, ?_, ?_, ?_⟩, ⟨?_, ?_, ?_, ?_⟩, ⟨?_, ?_, ?_, ?_⟩, ⟨?_, ?_, ?_, ?_⟩⟩ <;>
      rw [abs_lt] <;> constructor <;> norm_num
  have hfar : 1 / 10000 < |((some fgFar).getD transparent).red - e0.fg.red| := by
    unfold e0 fgFar symbolic_pixbuf_cache_new
    simp only [Option.getD_some]
    rw [show (1 / 2 : ℚ) - 1 = -(1 / 2) by norm_num, abs_neg,
      abs_of_nonneg (by norm_num : (0 : ℚ) ≤ 1 / 2)]
    norm_num
  have hnomatch : ∀ e ∈ [e0], ¬ cache_entry_matches e (some fgFar) none none none := by
    intro e he
    obtain rfl : e = e0 := by simpa using he
    intro hc
    have := h2.2.2 (some fgFar) e0.fg (Or.inl hfar)
    rw [hc.1] at this
    cases this
  refine ⟨(h1.1 ⟨e0, by simp, hmatch⟩).1, h2.2.1 hnomatch, ?_⟩
  exact h2.2.2 (some fgFar) e0.fg (Or.inl hfar)

/-- C6: ensure_valid_themes on a valid registry performs no re-stat
within 5 time units of the last stat pass (state untouched); called
after more than 5 time units with some tracked directory changed, it
clears the primary info cache, tears the themes down and reloads from
scratch, emitting the changed notification exactly once; an initially
invalid registry reloads without emitting. -/
theorem C6_staleness_policy (fs : String → Option Int) (tracked : List String)
    (now : Int) (st : RegistryState) (hnl : st.loading_themes = false) :
    (st.themes_valid = true → |now - st.last_stat_time| ≤ 5 →
      (ensure_valid_themes fs tracked now st).did_stat = false ∧
      (ensure_valid_themes fs tracked now st).emitted_changed = false ∧
      (ensure_valid_themes fs tracked now st).state.generation = st.generation ∧
      (ensure_valid_themes fs tracked now st).state.last_stat_time = st.last_stat_time ∧
      (ensure_valid_themes fs tracked now st).state.dir_mtimes = st.dir_mtimes ∧
      (ensure_valid_themes fs tracked now st).state.cache_keys = st.cache_keys) ∧
    (st.themes_valid = true → |now - st.last_stat_time| > 5 →
      st.dir_mtimes.any (dir_mtime_changed fs) = true →
      (ensure_valid_themes fs tracked now st).did_stat = true ∧
      (ensure_valid_themes fs tracked now st).emitted_changed = true ∧
      (ensure_valid_themes fs tracked now st).state.generation = st.generation + 1 ∧
      (ensure_valid_themes fs tracked now st).state.cache_keys = [] ∧
      (ensure_valid_themes fs tracked now st).state.themes_valid = true ∧
      (ensure_valid_themes fs tracked now st).state.dir_mtimes =
        tracked.map (fun p => ⟨p, (fs p).getD 0⟩) ∧
      (ensure_valid_themes fs tracked now st).state.last_stat_time = now) ∧
    (st.themes_valid = false →
      (ensure_valid_themes fs tracked now st).emitted_changed = false) := by
  refine ⟨?_, ?_, ?_⟩
  · intro hv h5
    have hno : ¬(|now - st.last_stat_time| > 5) := not_lt.mpr h5
    simp [ensure_valid_themes, hnl, hv, hno]
  · intro hv h5 hch
    simp [ensure_valid_themes, rescan_themes, blow_themes, load_themes_model,
      hnl, hv, h5, hch]
  · intro hv
    simp [ensure_valid_themes, hnl, hv, load_themes_model]

/-- A registry state tracking one directory recorded at mtime 50. -/
def st1 : RegistryState :=
  ⟨true, false, 100, [⟨"r", 50⟩], 3, [⟨["e"], 16, 1, 0⟩]⟩

/-- A filesystem on which the tracked directory now has mtime 60. -/
def fs1 : String → Option Int := fun p => if p = "r" then some 60 else none

/-- C6 witness: at time 105 (within the interval) nothing is re-stated;
at time 106 (beyond the interval) the changed directory triggers a
reload with one changed notification. -/
theorem C6_staleness_policy_witness :
    (ensure_valid_themes fs1 ["r"] 105 st1).did_stat = false ∧
    (ensure_valid_themes fs1 ["r"] 106 st1).did_stat = true ∧
    (ensure_valid_themes fs1 ["r"] 106 st1).emitted_changed = true ∧
    (ensure_valid_themes fs1 ["r"] 106 st1).state.generation = 4 := by
  have ha := C6_staleness_policy fs1 ["r"] 105 st1 rfl
  have hb := C6_staleness_policy fs1 ["r"] 106 st1 rfl
  have h1 := ha.1 rfl (by decide)
  have h2 := hb.2.1 rfl (by decide) (by decide)
  exact ⟨h1.1, h2.1, h2.2.1, h2.2.2.1⟩

/-- A Fixed 32-pixel directory at path dirA. -/
def tieDirA : IconThemeDir := ⟨.fixed, 32, 1, 32, 32, 2, "dirA", fun _ => 4⟩

/-- A Fixed 32-pixel directory identical to tieDirA except for its
path. -/
def tieDirB : IconThemeDir := ⟨.fixed, 32, 1, 32, 32, 2, "dirB", fun _ => 4⟩

/-- C3 counterexample: two directories fully tied on every precedence
rule and on the final raw difference; the claim says the earlier-seen
directory (dirA) is kept as the running best, but the scan returns the
later-seen dirB, because the less-or-equal tiebreak is evaluated with
the newly scanned directory as its left operand. -/
theorem C3_earlier_seen_loses_tie :
    (theme_lookup_scan [tieDirA, tieDirB] "e" 32 1 true).map
        (fun p => p.1.dir) = some "dirB" ∧
    "dirB" ≠ "dirA" := by
  refine ⟨rfl, by decide⟩

/-- C3 (amended): for candidate directories that tie on every earlier
precedence rule and on |requestedSize*requestedScale − dirSize*dirScale|,
the less-or-equal final tiebreak is applied with the newly scanned
directory as its left operand, so compare_dir_matches lets the
later-seen directory displace the earlier one and the later-seen
directory becomes the final match of the scan. -/
theorem C3_tiebreak_later_seen_wins (a b : IconThemeDir) (rs rsc : Int)
    (name : String) (allow_svg : Bool)
    (ha : best_suffix (a.icons name) allow_svg ≠ ICON_SUFFIX_NONE)
    (hb : best_suffix (b.icons name) allow_svg ≠ ICON_SUFFIX_NONE)
    (hd : theme_dir_size_difference a rs rsc = theme_dir_size_difference b rs rsc)
    (hside : a.size ≥ rs ↔ b.size ≥ rs)
    (hscale : a.scale = rsc ↔ b.scale = rsc)
    (htype : a.dtype = .scalable ↔ b.dtype = .scalable)
    (hraw : |rs * rsc - a.size * a.scale| = |rs * rsc - b.size * b.scale|) :
    compare_dir_matches b (theme_dir_size_difference b rs rsc)
        a (theme_dir_size_difference a rs rsc) rs rsc = true ∧
    theme_lookup_scan [a, b] name rs rsc allow_svg =
      some (b, theme_dir_size_difference b rs rsc) := by
  have htail : compare_dir_matches_tail b a rs rsc = true := by
    unfold compare_dir_matches_tail
    rw [if_neg (fun h => h.2 (hscale.mpr h.1)),
      if_neg (fun h => h.1 (hscale.mp h.2)),
      if_neg (fun h => h.1 (htype.mp h.2)),
      if_neg (fun h => h.2 (htype.mpr h.1)),
      decide_eq_true_eq]
    exact le_of_eq hraw.symm
  have hcmp : compare_dir_matches b (theme_dir_size_difference b rs rsc)
      a (theme_dir_size_difference a rs rsc) rs rsc = true := by
    unfold compare_dir_matches
    by_cases hdb0 : theme_dir_size_difference b rs rsc = 0
    · rw [if_pos hdb0, if_neg (by rw [hd, hdb0]; exact fun h => h rfl)]
      exact htail
    · rw [if_neg hdb0,
        if_neg (fun h => (not_le.mpr h.2) (hside.mpr h.1)),
        if_neg (fun h => (not_le.mpr h.1) (hside.mp h.2)),
        if_neg (by rw [hd]; exact lt_irrefl _),
        if_neg (by rw [hd]; exact lt_irrefl _)]
      exact htail
  refine ⟨hcmp, ?_⟩
  have hstep1 : theme_lookup_step name rs rsc allow_svg none a =
      some (a, theme_dir_size_difference a rs rsc) := by
    unfold theme_lookup_step
    rw [if_pos ha]
  have hstep2 : theme_lookup_step name rs rsc allow_svg
      (some (a, theme_dir_size_difference a rs rsc)) b =
      some (b, theme_dir_size_difference b rs rsc) := by
    unfold theme_lookup_step
    rw [if_pos hb]
    simp only [hcmp, if_true]
  calc theme_lookup_scan [a, b] name rs rsc allow_svg
      = theme_lookup_step name rs rsc allow_svg
          (theme_lookup_step name rs rsc allow_svg none a) b := rfl
    _ = some (b, theme_dir_size_difference b rs rsc) := by rw [hstep1, hstep2]

/-- C3 witness: instantiating the tie theorem on the two identical
32-pixel Fixed directories. -/
theorem C3_tiebreak_later_seen_wins_witness :
    compare_dir_matches tieDirB (theme_dir_size_difference tieDirB 32 1)
        tieDirA (theme_dir_size_difference tieDirA 32 1) 32 1 = true ∧
    theme_lookup_scan [tieDirA, tieDirB] "e" 32 1 true =
      some (tieDirB, theme_dir_size_difference tieDirB 32 1) :=
  C3_tiebreak_later_seen_wins tieDirA tieDirB 32 1 "e" true (by decide) (by decide)
    (by decide) (by decide) (by decide) (by decide) (by decide)

/-- insert_theme only pushes new names in front of the existing list:
the old list survives as a suffix, every pushed name was absent, and the
pushed block holds no duplicates. -/
theorem insert_theme_extends (world : String → ThemeFileState) :
    ∀ (fuel : Nat) (name : String) (themes : List String),
      ∃ ns : List String,
        insert_theme world fuel themes name = ns ++ themes ∧
        (∀ x ∈ ns, x ∉ themes) ∧ ns.Nodup := by
  intro fuel
  induction fuel with
  | zero =>
      intro name themes
      exact ⟨[], rfl, by simp, List.nodup_nil⟩
  | succ fuel ih =>
      have hfold : ∀ (l : List String) (acc : List String),
          ∃ ns, l.foldl (insert_theme world fuel) acc = ns ++ acc ∧
            (∀ x ∈ ns, x ∉ acc) ∧ ns.Nodup := by
        intro l
        induction l with
        | nil =>
            intro acc
            exact ⟨[], rfl, by simp, List.nodup_nil⟩
        | cons i is ihl =>
            intro acc
            obtain ⟨ns1, h1, h1n, h1d⟩ := ih i acc
            obtain ⟨ns2, h2, h2n, h2d⟩ := ihl (ns1 ++ acc)
            refine ⟨ns2 ++ ns1, ?_, ?_, ?_⟩
            · simp only [List.foldl_cons, h1, h2, List.append_assoc]
            · intro x hx
              rcases List.mem_append.mp hx with hx2 | hx1
              · exact fun hacc => h2n x hx2 (List.mem_append.mpr (Or.inr hacc))
              · exact h1n x hx1
            · exact List.Nodup.append h2d h1d
                (fun x hx2 hx1 => h2n x hx2 (List.mem_append.mpr (Or.inl hx1)))
      intro name themes
      unfold insert_theme
      by_cases hmem : name ∈ themes
      · rw [if_pos hmem]
        exact ⟨[], rfl, by simp, List.nodup_nil⟩
      · rw [if_neg hmem]
        cases hw : world name with
        | noFile =>
            by_cases hdef : name = DEFAULT_THEME_NAME
            · rw [if_pos hdef]
              exact ⟨[name], rfl, by simpa using hmem, List.nodup_singleton name⟩
            · rw [if_neg hdef]
              exact ⟨[], rfl, by simp, List.nodup_nil⟩
        | fileNoDirs =>
            exact ⟨[], rfl, by simp, List.nodup_nil⟩
        | file inh =>
            obtain ⟨ns, hns, hnsn, hnsd⟩ := hfold inh (name :: themes)
            refine ⟨ns ++ [name], ?_, ?_, ?_⟩
            · show List.foldl (insert_theme world fuel) (name :: themes) inh =
                ns ++ [name] ++ themes
              rw [hns]
              simp
            · intro x hx
              rcases List.mem_append.mp hx with hx2 | hx1
              · exact fun hthemes =>
                  hnsn x hx2 (List.mem_cons_of_mem name hthemes)
              · obtain rfl : x = name := by simpa using hx1
                exact hmem
            · refine List.Nodup.append hnsd (List.nodup_singleton name) ?_
              intro x hxns hxname
              obtain rfl : x = name := by simpa using hxname
              exact hnsn x hxns (List.mem_cons_self x themes)

/-- Names already present survive insert_theme. -/
theorem insert_theme_mem (world : String → ThemeFileState) (fuel : Nat)
    (name x : String) (themes : List String) (hx : x ∈ themes) :
    x ∈ insert_theme world fuel themes name := by
  obtain ⟨ns, hns, -, -⟩ := insert_theme_extends world fuel name themes
  rw [hns]
  exact List.mem_append.mpr (Or.inr hx)

/-- Inserting the default theme always leaves it in the list, unless its
descriptor exists but lacks the Directories key. -/
theorem insert_default_mem (world : String → ThemeFileState) (fuel : Nat)
    (themes : List String) (hfuel : 1 ≤ fuel)
    (hgood : world DEFAULT_THEME_NAME ≠ .fileNoDirs) :
    DEFAULT_THEME_NAME ∈ insert_theme world fuel themes DEFAULT_THEME_NAME := by
  cases fuel with
  | zero => omega
  | succ fuel =>
      unfold insert_theme
      by_cases hmem : DEFAULT_THEME_NAME ∈ themes
      · rw [if_pos hmem]
        exact hmem
      · rw [if_neg hmem]
        cases hw : world DEFAULT_THEME_NAME with
        | noFile =>
            rw [if_pos rfl]
            exact List.mem_cons_self _ _
        | fileNoDirs =>
            exact absurd hw hgood
        | file inh =>
            have : ∀ (l : List String) (acc : List String),
                ∃ ms, l.foldl (insert_theme world fuel) acc = ms ++ acc := by
              intro l
              induction l with
              | nil => intro acc; exact ⟨[], rfl⟩
              | cons i is ihl =>
                  intro acc
                  obtain ⟨m1, hm1, -, -⟩ := insert_theme_extends world fuel i acc
                  obtain ⟨m2, hm2⟩ := ihl (m1 ++ acc)
                  exact ⟨m2 ++ m1, by
                    simp only [List.foldl_cons, hm1, hm2, List.append_assoc]⟩
            obtain ⟨ms, hms⟩ := this inh (DEFAULT_THEME_NAME :: themes)
            show DEFAULT_THEME_NAME ∈
              List.foldl (insert_theme world fuel) (DEFAULT_THEME_NAME :: themes) inh
            rw [hms]
            exact List.mem_append.mpr (Or.inr (List.mem_cons_self _ _))

/-- Inserting a theme whose descriptor exists but lacks the Directories
key is a no-op: the freshly created entry is removed again. -/
theorem insert_theme_fileNoDirs (world : String → ThemeFileState)
    (fuel : Nat) (themes : List String) (name : String)
    (hbad : world name = .fileNoDirs) :
    insert_theme world fuel themes name = themes := by
  cases fuel with
  | zero => rfl
  | succ fuel =>
      show (if name ∈ themes then themes
        else match world name with
          | .noFile =>
              if name = DEFAULT_THEME_NAME then name :: themes else themes
          | .fileNoDirs => themes
          | .file inh =>
              inh.foldl (insert_theme world fuel) (name :: themes)) =
        themes
      by_cases hmem : name ∈ themes
      · rw [if_pos hmem]
      · rw [if_neg hmem, hbad]

/-- Inserting the absent default theme whose descriptor is missing (or
usable but inheritance-free) prepends exactly the one entry. -/
theorem insert_theme_default_placeholder (world : String → ThemeFileState)
    (fuel : Nat) (themes : List String) (hfuel : 1 ≤ fuel)
    (hnmem : DEFAULT_THEME_NAME ∉ themes)
    (hnone : world DEFAULT_THEME_NAME = .noFile ∨
      world DEFAULT_THEME_NAME = .file []) :
    insert_theme world fuel themes DEFAULT_THEME_NAME =
      DEFAULT_THEME_NAME :: themes := by
  cases fuel with
  | zero => omega
  | succ fuel =>
      show (if DEFAULT_THEME_NAME ∈ themes then themes
        else match world DEFAULT_THEME_NAME with
          | .noFile =>
              if DEFAULT_THEME_NAME = DEFAULT_THEME_NAME then
                DEFAULT_THEME_NAME :: themes
              else themes
          | .fileNoDirs => themes
          | .file inh =>
              inh.foldl (insert_theme world fuel)
                (DEFAULT_THEME_NAME :: themes)) =
        DEFAULT_THEME_NAME :: themes
      rw [if_neg hnmem]
      rcases hnone with h | h <;> rw [h] <;> simp

/-- C7 counterexample world: the current theme Foo inherits the default
theme, a usable gnome theme descriptor exists, and the default theme has
no descriptor anywhere. -/
def worldC7 : String → ThemeFileState := fun n =>
  if n = "Foo" then .file [DEFAULT_THEME_NAME]
  else if n = "gnome" then .file []
  else .noFile

/-- A world where every descriptor on disk — the current theme Foo's
(inheriting the default theme) included — exists but the default theme's
lacks the Directories key. -/
def worldC7c : String → ThemeFileState := fun n =>
  if n = "Foo" then .file [DEFAULT_THEME_NAME] else .fileNoDirs

/-- A world where the default theme's own descriptor is usable and
declares an ancestor theme Base. -/
def worldC7d : String → ThemeFileState := fun n =>
  if n = DEFAULT_THEME_NAME then .file ["Base"]
  else if n = "Base" then .file [] else .noFile

/-- C7 counterexample, refuting both halves of the claim: (1) with
current theme Foo inheriting the default theme and a gnome theme
present, the list is [Foo, hicolor, gnome] — the default theme is
present but not last; (2) with the default theme's descriptor present
but lacking the Directories key, the loaded list is just [Foo] — the
default theme is not even contained; (3) with the default theme's
descriptor inheriting a Base theme, the list is [hicolor, Base] — the
default theme's own ancestor, not the default theme, is last. -/
theorem C7_default_not_last_or_absent :
    load_themes_names worldC7 5 (some "Foo") =
      ["Foo", DEFAULT_THEME_NAME, "gnome"] ∧
    (load_themes_names worldC7 5 (some "Foo")).getLast? ≠
      some DEFAULT_THEME_NAME ∧
    load_themes_names worldC7c 5 (some "Foo") = ["Foo"] ∧
    DEFAULT_THEME_NAME ∉ load_themes_names worldC7c 5 (some "Foo") ∧
    load_themes_names worldC7d 5 none = [DEFAULT_THEME_NAME, "Base"] ∧
    (load_themes_names worldC7d 5 none).getLast? ≠
      some DEFAULT_THEME_NAME := by
  refine ⟨rfl, by decide, rfl, by decide, rfl, by decide⟩

/-- C7 (amended): after every completed (re)load the active theme list
contains no duplicate names. The built-in default theme is contained
whenever its descriptor is absent from every search-path root (an empty
placeholder entry is created) or parses usably; but when a descriptor
for it exists yet lacks the Directories key, the entry is created and
removed again, the final default insert is a no-op, and the default
theme is absent unless inserted earlier. The default theme is the last
element when its descriptor is absent or inheritance-free and it was not
already inserted earlier through the current theme's inheritance chain
or the gnome theme; otherwise a later-inserted theme (gnome, or an
ancestor of the default theme itself) ends the list. -/
theorem C7_theme_list_structure (world : String → ThemeFileState)
    (fuel : Nat) (current : Option String) :
    (load_themes_names world fuel current).Nodup ∧
    (1 ≤ fuel → world DEFAULT_THEME_NAME ≠ .fileNoDirs →
      DEFAULT_THEME_NAME ∈ load_themes_names world fuel current) ∧
    (world DEFAULT_THEME_NAME = .fileNoDirs →
      load_themes_names world fuel current =
        (insert_theme world fuel
          (match current with
            | some c => insert_theme world fuel [] c
            | none => []) "gnome").reverse) ∧
    (1 ≤ fuel →
      (world DEFAULT_THEME_NAME = .noFile ∨
        world DEFAULT_THEME_NAME = .file []) →
      DEFAULT_THEME_NAME ∉ insert_theme world fuel
        (match current with
          | some c => insert_theme world fuel [] c
          | none => []) "gnome" →
      (load_themes_names world fuel current).getLast? =
        some DEFAULT_THEME_NAME) := by
  set t1 : List String := match current with
    | some c => insert_theme world fuel [] c
    | none => [] with ht1
  have h1d : t1.Nodup := by
    rw [ht1]
    cases current with
    | none => exact List.nodup_nil
    | some c =>
        obtain ⟨ns, hns, -, hnsd⟩ := insert_theme_extends world fuel c []
        simpa [hns] using hnsd
  set t2 : List String := insert_theme world fuel t1 "gnome" with ht2
  have h2d : t2.Nodup := by
    obtain ⟨ns, hns, hnsn, hnsd⟩ := insert_theme_extends world fuel "gnome" t1
    rw [ht2, hns]
    exact List.Nodup.append hnsd h1d hnsn
  set t3 : List String := insert_theme world fuel t2 DEFAULT_THEME_NAME with ht3
  have h3d : t3.Nodup := by
    obtain ⟨ns, hns, hnsn, hnsd⟩ :=
      insert_theme_extends world fuel DEFAULT_THEME_NAME t2
    rw [ht3, hns]
    exact List.Nodup.append hnsd h2d hnsn
  have hload : load_themes_names world fuel current = t3.reverse := rfl
  refine ⟨?_, ?_, ?_, ?_⟩
  · rw [hload]
    exact List.nodup_reverse.mpr h3d
  · intro hfuel hgood
    rw [hload]
    rw [List.mem_reverse]
    exact insert_default_mem world fuel t2 hfuel hgood
  · intro hbad
    rw [hload]
    have ht3eq : t3 = t2 := by
      rw [ht3]
      exact insert_theme_fileNoDirs world fuel t2 DEFAULT_THEME_NAME hbad
    rw [ht3eq]
  · intro hfuel hnone hnot
    rw [hload]
    have ht3eq : t3 = DEFAULT_THEME_NAME :: t2 := by
      rw [ht3]
      exact insert_theme_default_placeholder world fuel t2 hfuel hnot hnone
    rw [ht3eq]
    rw [List.getLast?_reverse]
    rfl

/-- C7 world for the witness: a current theme with no inheritance and
no gnome or default descriptor on disk. -/
def worldC7b : String → ThemeFileState := fun n =>
  if n = "Cur" then .file [] else .noFile

/-- C7 world for the witness's no-op conjunct: the default theme's
descriptor exists but lacks the Directories key. -/
def worldC7e : String → ThemeFileState := fun n =>
  if n = "Cur" then .file [] else .fileNoDirs

/-- C7 witness: with a single inheritance-free current theme and no
default-theme descriptor anywhere, the load produces a duplicate-free
list containing the default theme as its last element; and with a
Directories-less default descriptor the final default insert is a no-op,
leaving just the current theme. -/
theorem C7_theme_list_structure_witness :
    (load_themes_names worldC7b 3 (some "Cur")).Nodup ∧
    DEFAULT_THEME_NAME ∈ load_themes_names worldC7b 3 (some "Cur") ∧
    (load_themes_names worldC7b 3 (some "Cur")).getLast? =
      some DEFAULT_THEME_NAME ∧
    load_themes_names worldC7e 3 (some "Cur") = ["Cur"] := by
  have h := C7_theme_list_structure worldC7b 3 (some "Cur")
  have h2 := C7_theme_list_structure worldC7e 3 (some "Cur")
  refine ⟨h.1, h.2.1 (by decide) (by decide),
    h.2.2.2 (by decide) (by decide) (by decide), ?_⟩
  rw [h2.2.2.1 (by decide)]
  rfl

/-- findSome? skips a leading block on which the function yields
nothing. -/
theorem findSome?_append_none {α β : Type} (f : α → Option β) :
    ∀ (l1 l2 : List α), (∀ x ∈ l1, f x = none) →
      (l1 ++ l2).findSome? f = l2.findSome? f := by
  intro l1
  induction l1 with
  | nil => intro l2 _; rfl
  | cons a l ih =>
      intro l2 h
      have ha : f a = none := h a (List.mem_cons_self a l)
      rw [List.cons_append, List.findSome?_cons, ha]
      exact ih l2 (fun x hx => h x (List.mem_cons_of_mem a hx))

/-- C4: when the first candidate name ends in "-symbolic", choose_icon
tries that single name against every active theme in theme order before
any other candidate name: the first theme resolving the symbolic name
supplies the result even if an earlier theme could resolve a later
candidate name, and only when no theme resolves the symbolic name does
the search fall back to the per-theme loop over all candidate names. -/
theorem C4_symbolic_first_search (themes t1 t2 : List IconTheme)
    (T : IconTheme) (n0 : String) (rest : List String) (size scale : Int)
    (allow_svg : Bool) (hsuf : g_str_has_suffix n0 "-symbolic" = true) :
    ((themes = t1 ++ T :: t2 ∧
        (∀ t ∈ t1, theme_lookup_icon t n0 size scale allow_svg = none)) →
      ∀ p : IconThemeDir × Int,
        theme_lookup_icon T n0 size scale allow_svg = some p →
        choose_icon_search themes (n0 :: rest) size scale allow_svg =
          some ⟨T.name, n0, p.1, p.2⟩) ∧
    ((∀ t ∈ themes, theme_lookup_icon t n0 size scale allow_svg = none) →
      choose_icon_search themes (n0 :: rest) size scale allow_svg =
        themes.findSome? fun t =>
          (n0 :: rest).findSome? fun n =>
            (theme_lookup_icon t n size scale allow_svg).map
              fun (p : IconThemeDir × Int) =>
                (⟨t.name, n, p.1, p.2⟩ : ResolvedIcon)) := by
  constructor
  · rintro ⟨rfl, hfail⟩ p hT
    have hpass : (t1 ++ T :: t2).findSome?
        (fun t => (theme_lookup_icon t n0 size scale allow_svg).map
          fun (q : IconThemeDir × Int) =>
            (⟨t.name, n0, q.1, q.2⟩ : ResolvedIcon)) =
        some ⟨T.name, n0, p.1, p.2⟩ := by
      rw [findSome?_append_none _ t1 (T :: t2)
        (fun t ht => by rw [hfail t ht]; rfl)]
      rw [List.findSome?_cons, hT]
      rfl
    simp only [choose_icon_search, hsuf, if_true, hpass]
  · intro hall
    have hpass : themes.findSome?
        (fun t => (theme_lookup_icon t n0 size scale allow_svg).map
          fun (q : IconThemeDir × Int) =>
            (⟨t.name, n0, q.1, q.2⟩ : ResolvedIcon)) = none := by
      rw [List.findSome?_eq_none_iff]
      intro t ht
      rw [hall t ht]
      rfl
    simp only [choose_icon_search, hsuf, if_true, hpass]

/-- The current theme's only directory: holds a PNG for "foo" and no
symbolic variant. -/
def fooDir : IconThemeDir :=
  ⟨.threshold, 16, 1, 16, 16, 2, "Foo/16", fun n => if n = "foo" then 4 else 0⟩

/-- The current theme Foo. -/
def fooTheme : IconTheme := ⟨"Foo", [fooDir]⟩

/-- The inherited theme's only directory: holds the SVG
"foo-symbolic". -/
def parentDir : IconThemeDir :=
  ⟨.threshold, 16, 1, 16, 16, 2, "hicolor/16",
    fun n => if n = "foo-symbolic" then 2 else 0⟩

/-- The inherited default theme. -/
def parentTheme : IconTheme := ⟨"hicolor", [parentDir]⟩

/-- C4 witness: looking up ["foo-symbolic", "foo"] where the current
theme Foo offers only the non-symbolic "foo" and the inherited theme
offers "foo-symbolic" resolves to the inherited theme's symbolic icon,
even though Foo precedes it in theme order and could satisfy the second
candidate name. -/
theorem C4_symbolic_first_search_witness :
    choose_icon_search [fooTheme, parentTheme] ["foo-symbolic", "foo"] 16 1 true =
      some ⟨"hicolor", "foo-symbolic", parentDir, 0⟩ ∧
    (theme_lookup_icon fooTheme "foo" 16 1 true).isSome = true := by
  have h := (C4_symbolic_first_search [fooTheme, parentTheme] [fooTheme]
      [] parentTheme "foo-symbolic" ["foo"] 16 1 true (by decide)).1
  refine ⟨?_, rfl⟩
  have hfail : ∀ t ∈ [fooTheme],
      theme_lookup_icon t "foo-symbolic" 16 1 true = none := by
    intro t ht
    obtain rfl : t = fooTheme := by simpa using ht
    rfl
  exact h ⟨rfl, hfail⟩ (parentDir, 0) rfl

/-- With a nonnegative requested size and a positive requested scale,
every directory distance is nonnegative. -/
theorem dir_size_difference_nonneg (d : IconThemeDir) (rs rsc : Int)
    (h0 : 0 ≤ rs) (h1 : 1 ≤ rsc) : 0 ≤ theme_dir_size_difference d rs rsc := by
  have hscaled : rs ≤ rs * rsc := le_mul_of_one_le_right h0 h1
  simp only [theme_dir_size_difference]
  split
  · exact abs_nonneg _
  · split
    · rename_i h
      linarith
    · split
      · rename_i h
        linarith
      · exact le_refl 0
  · split
    · rename_i h
      linarith
    · split
      · rename_i h
        linarith
      · exact le_refl 0
  · norm_num

/-- The running-best invariant established once an exactly matching
Fixed directory has been scanned: the incumbent is non-Scalable, carries
the requested nominal size and scale, and has distance 0. -/
def exact_match_inv (rs rsc : Int) (d : IconThemeDir) : Prop :=
  d.size = rs ∧ d.scale = rsc ∧ d.dtype ≠ .scalable ∧
    theme_dir_size_difference d rs rsc = 0

/-- A challenger at nonzero distance never displaces an incumbent
satisfying the exact-match invariant. -/
theorem challenger_nonexact_loses (c d : IconThemeDir) (rs rsc : Int)
    (hc : exact_match_inv rs rsc c)
    (hnn : 0 ≤ theme_dir_size_difference d rs rsc)
    (hne : theme_dir_size_difference d rs rsc ≠ 0) :
    compare_dir_matches d (theme_dir_size_difference d rs rsc) c 0 rs rsc =
      false := by
  unfold compare_dir_matches
  rw [if_neg hne]
  rw [if_neg (by rintro ⟨-, h2⟩; rw [hc.1] at h2; exact lt_irrefl rs h2)]
  by_cases h2 : d.size < rs ∧ c.size ≥ rs
  · rw [if_pos h2]
  · rw [if_neg h2]
    rw [if_neg (not_lt.mpr hnn)]
    rw [if_pos (lt_of_le_of_ne hnn (Ne.symm hne))]

/-- A distance-0 challenger that does displace an invariant-satisfying
incumbent satisfies the invariant itself. -/
theorem exact_challenger_inv (c d : IconThemeDir) (rs rsc : Int)
    (h1 : 1 ≤ rsc) (hc : exact_match_inv rs rsc c)
    (hd0 : theme_dir_size_difference d rs rsc = 0)
    (hw : compare_dir_matches d 0 c 0 rs rsc = true) :
    exact_match_inv rs rsc d := by
  unfold compare_dir_matches at hw
  rw [if_pos rfl, if_neg (fun h => h rfl)] at hw
  unfold compare_dir_matches_tail at hw
  by_cases hds : d.scale = rsc
  · rw [if_neg (fun h => h.2 hc.2.1), if_neg (fun h => h.1 hds)] at hw
    by_cases hdt : d.dtype = .scalable
    · rw [if_neg (fun h => h.1 hdt), if_pos ⟨hdt, hc.2.2.1⟩] at hw
      cases hw
    · rw [if_neg (fun h => hc.2.2.1 h.2), if_neg (fun h => hdt h.1),
        decide_eq_true_eq] at hw
      rw [hc.1, hc.2.1, sub_self, abs_zero] at hw
      have hzero : |rs * rsc - d.size * d.scale| = 0 :=
        le_antisymm hw (abs_nonneg _)
      have hprod : rs * rsc = d.size * d.scale :=
        sub_eq_zero.mp (abs_eq_zero.mp hzero)
      rw [hds] at hprod
      have hsz : d.size = rs :=
        (mul_right_cancel₀ (by omega : rsc ≠ 0) hprod.symm)
      exact ⟨hsz, hds, hdt, hd0⟩
  · rw [if_neg (fun h => hds h.1), if_pos ⟨hds, hc.2.1⟩] at hw
    cases hw

/-- An exactly matching Fixed directory displaces any incumbent. -/
theorem exact_fixed_beats_any (F c : IconThemeDir) (rs rsc dc : Int)
    (hF : F.dtype = .fixed) (hFs : F.size = rs) (hFc : F.scale = rsc) :
    compare_dir_matches F 0 c dc rs rsc = true := by
  have hFnotsc : F.dtype ≠ .scalable := by
    rw [hF]
    exact fun h => nomatch h
  unfold compare_dir_matches
  rw [if_pos rfl]
  by_cases hdc : dc ≠ 0
  · rw [if_pos hdc]
  · rw [if_neg hdc]
    unfold compare_dir_matches_tail
    by_cases hcs : c.scale = rsc
    · rw [if_neg (fun h => h.2 hcs), if_neg (fun h => h.1 hFc)]
      by_cases hct : c.dtype = .scalable
      · rw [if_pos ⟨hFnotsc, hct⟩]
      · rw [if_neg (fun h => hct h.2), if_neg (fun h => hFnotsc h.1),
          decide_eq_true_eq]
        rw [hFs, hFc, sub_self, abs_zero]
        exact abs_nonneg _
    · rw [if_pos ⟨hFc, hcs⟩]

/-- One scan step keeps the exact-match invariant of the running
best. -/
theorem step_preserves_inv (name : String) (rs rsc : Int) (allow_svg : Bool)
    (h0 : 0 ≤ rs) (h1 : 1 ≤ rsc) (c d : IconThemeDir)
    (hc : exact_match_inv rs rsc c) :
    ∃ e, theme_lookup_step name rs rsc allow_svg (some (c, 0)) d =
        some (e, 0) ∧ exact_match_inv rs rsc e := by
  unfold theme_lookup_step
  by_cases helig : best_suffix (d.icons name) allow_svg ≠ ICON_SUFFIX_NONE
  · rw [if_pos helig]
    by_cases hd0 : theme_dir_size_difference d rs rsc = 0
    · by_cases hw : compare_dir_matches d (theme_dir_size_difference d rs rsc)
          c 0 rs rsc = true
      · have hw0 : compare_dir_matches d 0 c 0 rs rsc = true := hd0 ▸ hw
        refine ⟨d, ?_, exact_challenger_inv c d rs rsc h1 hc hd0 hw0⟩
        rw [hd0]
        show (if compare_dir_matches d 0 c 0 rs rsc = true then some (d, 0)
          else some (c, 0)) = some (d, 0)
        rw [if_pos hw0]
      · refine ⟨c, ?_, hc⟩
        rw [Bool.not_eq_true] at hw
        show (if compare_dir_matches d (theme_dir_size_difference d rs rsc)
            c 0 rs rsc = true
          then some (d, theme_dir_size_difference d rs rsc)
          else some (c, 0)) = some (c, 0)
        rw [hw]
        simp
    · have hnn := dir_size_difference_nonneg d rs rsc h0 h1
      have hfalse := challenger_nonexact_loses c d rs rsc hc hnn hd0
      refine ⟨c, ?_, hc⟩
      show (if compare_dir_matches d (theme_dir_size_difference d rs rsc)
          c 0 rs rsc = true
        then some (d, theme_dir_size_difference d rs rsc)
        else some (c, 0)) = some (c, 0)
      rw [hfalse]
      simp
  · rw [if_neg helig]
    exact ⟨c, rfl, hc⟩

/-- The rest of the scan keeps the exact-match invariant. -/
theorem foldl_preserves_inv (name : String) (rs rsc : Int) (allow_svg : Bool)
    (h0 : 0 ≤ rs) (h1 : 1 ≤ rsc) :
    ∀ (l : List IconThemeDir) (c : IconThemeDir), exact_match_inv rs rsc c →
      ∃ e, l.foldl (theme_lookup_step name rs rsc allow_svg) (some (c, 0)) =
          some (e, 0) ∧ exact_match_inv rs rsc e := by
  intro l
  induction l with
  | nil =>
      intro c hc
      exact ⟨c, rfl, hc⟩
  | cons d ds ih =>
      intro c hc
      obtain ⟨e, he, hei⟩ := step_preserves_inv name rs rsc allow_svg h0 h1 c d hc
      rw [List.foldl_cons, he]
      exact ih e hei

/-- Scanning an exactly matching Fixed directory establishes the
invariant from any accumulator state. -/
theorem step_arrival (name : String) (rs rsc : Int) (allow_svg : Bool)
    (F : IconThemeDir) (hF : F.dtype = .fixed) (hFs : F.size = rs)
    (hFc : F.scale = rsc)
    (helig : best_suffix (F.icons name) allow_svg ≠ ICON_SUFFIX_NONE) :
    ∀ acc : Option (IconThemeDir × Int),
      ∃ e, theme_lookup_step name rs rsc allow_svg acc F = some (e, 0) ∧
        exact_match_inv rs rsc e := by
  have hFdiff : theme_dir_size_difference F rs rsc = 0 := by
    simp only [theme_dir_size_difference]
    rw [hF, hFs, hFc]
    simp
  have hFnotsc : F.dtype ≠ .scalable := by
    rw [hF]
    exact fun h => nomatch h
  have hFinv : exact_match_inv rs rsc F := ⟨hFs, hFc, hFnotsc, hFdiff⟩
  intro acc
  cases acc with
  | none =>
      refine ⟨F, ?_, hFinv⟩
      unfold theme_lookup_step
      rw [if_pos helig]
      rw [hFdiff]
  | some p =>
      obtain ⟨c, dc⟩ := p
      refine ⟨F, ?_, hFinv⟩
      unfold theme_lookup_step
      rw [if_pos helig]
      have hcmp := exact_fixed_beats_any F c rs rsc dc hF hFs hFc
      rw [hFdiff]
      show (if compare_dir_matches F 0 c dc rs rsc = true then some (F, 0)
        else some (c, dc)) = some (F, 0)
      rw [if_pos hcmp]

/-- Fixed directory of nominal size 12 at directory scale 2: its
size*scale product equals 24*1, so its distance at request (24, 1)
is 0. -/
def exactFixedDir : IconThemeDir :=
  ⟨.fixed, 12, 2, 12, 12, 2, "fixed12at2", fun _ => 4⟩

/-- Threshold directory of nominal size 24 at directory scale 2, far
from the request (24, 1): distance 20. -/
def thresholdDir : IconThemeDir :=
  ⟨.threshold, 24, 2, 24, 24, 2, "threshold24at2", fun _ => 4⟩

/-- C2 counterexample: the list holds a Fixed directory whose
dirSize*dirScale equals requestedSize*requestedScale (distance 0), yet
the scan selects the Threshold directory at distance 20, because the
downscale-preference rule fires before exactness is compared when the
challenger is non-exact: the Threshold directory's nominal size 24 is at
least the requested 24 while the Fixed directory's nominal size 12 is
below it. -/
theorem C2_product_exactness_insufficient :
    exactFixedDir.dtype = .fixed ∧
    exactFixedDir.size * exactFixedDir.scale = 24 * 1 ∧
    theme_dir_size_difference exactFixedDir 24 1 = 0 ∧
    theme_dir_size_difference thresholdDir 24 1 = 20 ∧
    thresholdDir.dtype = .threshold ∧
    (theme_lookup_scan [exactFixedDir, thresholdDir] "e" 24 1 true).map
        (fun p => (p.1.dir, p.2)) = some ("threshold24at2", 20) :=
  ⟨rfl, rfl, rfl, rfl, rfl, rfl⟩

/-- C2 (amended): for a nonnegative requested size and scale at least 1,
if the directory list contains a Fixed directory holding the icon whose
nominal size equals the requested size and whose scale equals the
requested scale componentwise (equality of the products alone is not
enough), then the scan's final match is a directory at distance 0 with
that same size and scale and of non-Scalable type — in particular no
Threshold or Scalable directory at nonzero distance is selected,
regardless of the Fixed directory's scan position; the selected exact
directory need not be that Fixed directory itself when several
directories are exact. -/
theorem C2_exact_fixed_directory_wins (dirs : List IconThemeDir)
    (name : String) (rs rsc : Int) (allow_svg : Bool) (F : IconThemeDir)
    (h0 : 0 ≤ rs) (h1 : 1 ≤ rsc) (hmem : F ∈ dirs)
    (hF : F.dtype = .fixed) (hFs : F.size = rs) (hFc : F.scale = rsc)
    (helig : best_suffix (F.icons name) allow_svg ≠ ICON_SUFFIX_NONE) :
    ∃ e : IconThemeDir,
      theme_lookup_scan dirs name rs rsc allow_svg = some (e, 0) ∧
      e.size = rs ∧ e.scale = rsc ∧ e.dtype ≠ .scalable ∧
      theme_dir_size_difference e rs rsc = 0 := by
  obtain ⟨l1, l2, rfl⟩ := List.append_of_mem hmem
  unfold theme_lookup_scan
  rw [List.foldl_append, List.foldl_cons]
  obtain ⟨e1, he1, hi1⟩ := step_arrival name rs rsc allow_svg F hF hFs hFc helig
    (l1.foldl (theme_lookup_step name rs rsc allow_svg) none)
  rw [he1]
  obtain ⟨e, he, hi⟩ := foldl_preserves_inv name rs rsc allow_svg h0 h1 l2 e1 hi1
  rw [he]
  exact ⟨e, rfl, hi.1, hi.2.1, hi.2.2.1, hi.2.2.2⟩

/-- Fixed directory of nominal size 24 at directory scale 1. -/
def exactFixed24 : IconThemeDir :=
  ⟨.fixed, 24, 1, 24, 24, 2, "fixed24", fun _ => 4⟩

/-- C2 witness: with the distant Threshold directory scanned first and a
componentwise-exact Fixed directory after it, the final match is an
exact directory. -/
theorem C2_exact_fixed_directory_wins_witness :
    ∃ e : IconThemeDir,
      theme_lookup_scan [thresholdDir, exactFixed24] "e" 24 1 true =
        some (e, 0) ∧
      e.size = 24 ∧ e.scale = 1 ∧ e.dtype ≠ .scalable ∧
      theme_dir_size_difference e 24 1 = 0 :=
  C2_exact_fixed_directory_wins [thresholdDir, exactFixed24] "e" 24 1 true
    exactFixed24 (by decide) (by decide)
    (List.mem_cons_of_mem thresholdDir (List.mem_cons_self exactFixed24 []))
    rfl rfl rfl (by decide)

end IconThemeModel
